import Mathlib

/-!
Shallow embedding of the CyberTruck telemetry firmware
(src/CyberTruck/Core/Src/main.c) for verification of its specification.

The firmware runs on an STM32F103 (little-endian ARM Cortex-M3).  We embed:
  * the quadrature decoder (qLUT, the per-wheel ISRs, `encXX += qLUT[...]`
    on a wrapping 32-bit signed counter),
  * the MPU9250 driver (`i2c_read_burst`, `mpu_begin`, `mpu_read`, the
    gyro-Z bias calibration loop in `main`),
  * the telemetry framer (`Payload` packed struct, `checksum_xor`,
    `send_payload`),
  * the relevant control flow of `main`.

Modelling conventions:
  * Machine bytes are `Nat` masked by `% 256` where the C type system makes
    the value a `uint8_t`; 32-bit signed values are `Int` in two's-complement
    range, wrapped by `wrap32` at each update, matching `int32_t` overflow
    behaviour on the target.
  * `float` arithmetic is modelled by exact rational arithmetic over `ℚ`:
    the source uses single constant expressions (9.80665f/8192.0f and
    0.001064225f) times small integers, and the properties claimed are
    about these exact scale factors.
  * The IEEE-754 bit pattern of a float stored into the packed struct is
    an opaque 32-bit word: `send_payload` copies struct memory, so the
    serializer is parametric in an encoding function `ℚ → Nat` and the
    `Payload` structure holds the four-byte words of the float fields.
  * `send_payload` streams the raw memory of the packed struct; the memory
    image of a multi-byte field depends on host byte order, so the byte
    layout is parametric in an `Endian` value (the target is little-endian).
-/

namespace CyberTruck

/-- The 16-entry quadrature transition table, main.c lines 60-65. -/
def qLUT : List Int := [0, -1, 1, 0, 1, 0, 0, -1, -1, 0, 0, 1, 0, 1, -1, 0]

/-- The delta chosen by the ISRs: `qLUT[(prev << 2) | new]` with `prev`,
`new` two-bit phase values (`prev << 2 | new = 4 * prev + new`). -/
def qDelta (prev new : Fin 4) : Int := qLUT.getD (4 * prev.val + new.val) 0

/-- Two's-complement wraparound of a 32-bit signed counter: the result of
storing an integer into an `int32_t`. -/
def wrap32 (x : Int) : Int := (x + 2147483648) % 4294967296 - 2147483648

/-- One wheel's decoder state: `encXX` (signed position) and `prevXX`
(last 2-bit phase), main.c lines 57-58. -/
structure EncoderState where
  position : Int
  lastPhase : Fin 4
  deriving DecidableEq

/-- One edge-interrupt invocation, e.g. `isrFL` (main.c line 84):
`ns = rd(); enc += qLUT[(prev << 2) | ns]; prev = ns;`, with the new phase
`ns` read from the pins supplied as input. -/
def isrStep (s : EncoderState) (ns : Fin 4) : EncoderState :=
  { position := wrap32 (s.position + qDelta s.lastPhase ns), lastPhase := ns }

/-- The successor phase one quadrature step ahead in the forward rotation
direction: the Gray cycle 0 → 1 → 3 → 2 → 0 traced by the two channels. -/
def fwdPhase (p : Fin 4) : Fin 4 :=
  match p.val with
  | 0 => 1
  | 1 => 3
  | 2 => 0
  | _ => 2

/-- The predecessor phase: one quadrature step in the reverse direction
(inverse of `fwdPhase`). -/
def revPhase (p : Fin 4) : Fin 4 :=
  match p.val with
  | 0 => 2
  | 1 => 0
  | 2 => 3
  | _ => 1

/-- A single-step forward transition delivered to the ISR. -/
def stepFwd (s : EncoderState) : EncoderState := isrStep s (fwdPhase s.lastPhase)

/-- A single-step reverse transition delivered to the ISR. -/
def stepRev (s : EncoderState) : EncoderState := isrStep s (revPhase s.lastPhase)

/-- N single-step forward transitions. -/
def stepFwdN : Nat → EncoderState → EncoderState
  | 0, s => s
  | n + 1, s => stepFwdN n (stepFwd s)

/-- N single-step reverse transitions. -/
def stepRevN : Nat → EncoderState → EncoderState
  | 0, s => s
  | n + 1, s => stepRevN n (stepRev s)

/-- A value representable by an `int32_t`. -/
def Int32Rep (x : Int) : Prop := -2147483648 ≤ x ∧ x < 2147483648

instance (x : Int) : Decidable (Int32Rep x) := by unfold Int32Rep; infer_instance

/-! ### Telemetry framer -/

/-- Host byte order.  `send_payload` copies the raw memory of the packed
struct, so the byte order of each multi-byte field is the byte order of the
compilation target.  The STM32F103 target is little-endian. -/
inductive Endian where
  | little
  | big
  deriving DecidableEq

/-- The four memory bytes of a 32-bit word, least significant first. -/
def le32 (x : Nat) : List Nat :=
  [x % 256, x / 256 % 256, x / 65536 % 256, x / 16777216 % 256]

/-- The two memory bytes of a 16-bit word, least significant first. -/
def le16 (x : Nat) : List Nat := [x % 256, x / 256 % 256]

/-- Memory image of a word on a host of byte order `e`. -/
def fieldMem (e : Endian) (leBytes : List Nat) : List Nat :=
  match e with
  | .little => leBytes
  | .big => leBytes.reverse

/-- The 32-bit two's-complement bit pattern of an `int32_t` value. -/
def u32ofInt (x : Int) : Nat := (x % 4294967296).toNat

/-- The packed `Payload` struct, main.c lines 212-221.  Field order is the
declaration order; `__attribute__((packed))` leaves no padding.  The six
`float` fields are stored as their (opaque) 32-bit IEEE-754 words. -/
structure Payload where
  t_ms : Nat
  ticksFL : Int
  ticksFR : Int
  ticksBL : Int
  ticksBR : Int
  ax : Nat
  ay : Nat
  az : Nat
  gx : Nat
  gy : Nat
  gz : Nat
  flags : Nat
  deriving DecidableEq

/-- The 46-byte memory image of the packed struct on a host of byte order
`e`: what `(const uint8_t*)p` exposes in `send_payload`. -/
def payloadBytes (e : Endian) (p : Payload) : List Nat :=
  fieldMem e (le32 p.t_ms) ++
  fieldMem e (le32 (u32ofInt p.ticksFL)) ++
  fieldMem e (le32 (u32ofInt p.ticksFR)) ++
  fieldMem e (le32 (u32ofInt p.ticksBL)) ++
  fieldMem e (le32 (u32ofInt p.ticksBR)) ++
  fieldMem e (le32 p.ax) ++
  fieldMem e (le32 p.ay) ++
  fieldMem e (le32 p.az) ++
  fieldMem e (le32 p.gx) ++
  fieldMem e (le32 p.gy) ++
  fieldMem e (le32 p.gz) ++
  fieldMem e (le16 p.flags)

/-- `checksum_xor` (main.c lines 223-227): byte-wise XOR fold over a
buffer, starting from 0. -/
def checksum_xor (l : List Nat) : Nat := l.foldl Nat.xor 0

/-- `send_payload` (main.c lines 234-247): the full byte stream of one
frame — header 0xAA 0x55, the 46 struct-memory bytes, then
`checksum_xor` of those same bytes. -/
def send_payload (e : Endian) (p : Payload) : List Nat :=
  [0xAA, 0x55] ++ payloadBytes e p ++ [checksum_xor (payloadBytes e p)]

/-- Little-endian 32-bit read at an offset of a byte list (spec-side
decoder used to state what "field stored little-endian at offset k"
means). -/
def rdLE32 (l : List Nat) (off : Nat) : Nat :=
  match l.drop off with
  | b0 :: b1 :: b2 :: b3 :: _ => b0 + 256 * b1 + 65536 * b2 + 16777216 * b3
  | _ => 0

/-- Little-endian 16-bit read at an offset of a byte list. -/
def rdLE16 (l : List Nat) (off : Nat) : Nat :=
  match l.drop off with
  | b0 :: b1 :: _ => b0 + 256 * b1
  | _ => 0

/-! ### MPU9250 driver -/

/-- One converted sensor sample (m/s^2 and rad/s), float arithmetic
modelled exactly over `ℚ`. -/
structure Sample where
  ax : ℚ
  ay : ℚ
  az : ℚ
  gx : ℚ
  gy : ℚ
  gz : ℚ
  deriving DecidableEq

/-- Cast of a 16-bit word to `int16_t` (two's complement). -/
def toInt16 (v : Nat) : Int :=
  if v % 65536 < 32768 then (v % 65536 : Int) else (v % 65536 : Int) - 65536

/-- `(int16_t)((hi << 8) | lo)` on two register bytes: the raw big-endian
16-bit signed value of one sensor axis. -/
def beRaw (hi lo : Nat) : Int := toInt16 ((hi % 256) * 256 + lo % 256)

/-- The accelerometer scale factor `ACCEL_S = 9.80665f / 8192.0f`
(main.c line 198), modelled exactly. -/
def ACCEL_S : ℚ := 9.80665 / 8192

/-- The gyro scale factor `GYRO_S = 0.001064225f` (main.c line 203),
modelled exactly. -/
def GYRO_S : ℚ := 0.001064225

/-- `mpu_read` (main.c lines 186-208) with the burst-read outcome
abstracted: `ret` is the byte count the burst read returned and `buf` the
14-byte buffer it filled.  Returns `none` (C: returns 0, outputs
unwritten) when `ret != 14`, otherwise the six converted axes. -/
def mpu_read (ret : Nat) (buf : Nat → Nat) (bias : ℚ) : Option Sample :=
  if ret ≠ 14 then none
  else
    some
      { ax := (beRaw (buf 0) (buf 1) : ℚ) * ACCEL_S
        ay := (beRaw (buf 2) (buf 3) : ℚ) * ACCEL_S
        az := (beRaw (buf 4) (buf 5) : ℚ) * ACCEL_S
        gx := (beRaw (buf 8) (buf 9) : ℚ) * GYRO_S
        gy := (beRaw (buf 10) (buf 11) : ℚ) * GYRO_S
        gz := (beRaw (buf 12) (buf 13) : ℚ) * GYRO_S - bias }

/-- `i2c_read_burst` (main.c lines 146-164).  `bus` models the successive
`I2C1->DR` values the bus delivers (whatever they are, each read yields a
`uint8_t`).  The function fills the buffer and then executes `return n;`
unconditionally: the returned count is `n` whatever the bus did. -/
def i2c_read_burst (bus : Nat → Nat) (n : Nat) : (Nat → Nat) × Nat :=
  (fun i => bus i % 256, n)

/-- `mpu_read` as called in the firmware: the burst read of 14 bytes from
`REG_ACCEL_XOUT_H` performed by `i2c_read_burst`. -/
def mpu_read_hw (bus : Nat → Nat) (bias : ℚ) : Option Sample :=
  let r := i2c_read_burst bus 14
  mpu_read r.2 r.1 bias

/-- `mpu_begin` (main.c lines 172-182): issues the six configuration
writes and then executes `return 1;` — it reports success
unconditionally. -/
def mpu_begin : Bool := true

/-- The raw gyro-Z value of one 14-byte burst buffer (`buf[12]`, `buf[13]`). -/
def rawZ (buf : Nat → Nat) : Int := beRaw (buf 12) (buf 13)

/-- The gyro-Z bias calibration loop of `main` (main.c lines 396-406):
400 reads through `mpu_read`, each successful read adds
`gz + gyro_bias_z` to the sum (undoing the bias subtraction inside
`mpu_read`), and the result is `sum / N` with `N = 400`.  `bufs` is the
stream of burst buffers the bus delivers, `bias0` the value of
`gyro_bias_z` during calibration (0 at startup). -/
def calibrate (bufs : Fin 400 → Nat → Nat) (bias0 : ℚ) : ℚ :=
  (∑ i : Fin 400,
      (match mpu_read_hw (bufs i) bias0 with
       | some m => m.gz + bias0
       | none => 0)) / 400

/-! ### Acquisition loop and global state -/

/-- Frame assembly in the loop body (main.c lines 428-437): the locals
`ax..gz` start at 0 and are overwritten only when `mpu_read` succeeds;
`flags = ok ? 0 : 0x0001`.  `enc` is the (opaque) IEEE-754 single encoding
used when a float local is stored into the packed struct. -/
def buildPayload (enc : ℚ → Nat) (now : Nat) (tFL tFR tBL tBR : Int)
    (s : Option Sample) : Payload :=
  { t_ms := now
    ticksFL := tFL
    ticksFR := tFR
    ticksBL := tBL
    ticksBR := tBR
    ax := enc (match s with | some m => m.ax | none => 0)
    ay := enc (match s with | some m => m.ay | none => 0)
    az := enc (match s with | some m => m.az | none => 0)
    gx := enc (match s with | some m => m.gx | none => 0)
    gy := enc (match s with | some m => m.gy | none => 0)
    gz := enc (match s with | some m => m.gz | none => 0)
    flags := match s with | some _ => 0 | none => 1 }

/-- The environment one loop iteration sees: the millisecond clock value,
the four encoder counters at snapshot time, and the bus bytes of the burst
read. -/
structure CycleIn where
  now : Nat
  tFL : Int
  tFR : Int
  tBL : Int
  tBR : Int
  bus : Nat → Nat

/-- The 49 bytes one `Running` iteration transmits (snapshot → `mpu_read`
→ build payload → `send_payload`), on the little-endian target. -/
def loopFrame (enc : ℚ → Nat) (bias : ℚ) (c : CycleIn) : List Nat :=
  send_payload Endian.little
    (buildPayload enc c.now c.tFL c.tFR c.tBL c.tBR (mpu_read_hw c.bus bias))

/-- The UART bytes `main` has emitted after `n` producing iterations
(main.c lines 392-440): if `mpu_begin` reported failure, `main` enters
`while(1);` and transmits nothing, ever; otherwise every iteration
appends one frame. -/
def mainOut (beginOk : Bool) (enc : ℚ → Nat) (bias : ℚ)
    (cyc : Nat → CycleIn) : Nat → List Nat
  | 0 => []
  | n + 1 =>
    mainOut beginOk enc bias cyc n ++
      (if beginOk then loopFrame enc bias (cyc n) else [])

/-- The mutable globals of the firmware (main.c lines 57-58, 184, 250). -/
structure Sys where
  encFL : Int
  encFR : Int
  encBL : Int
  encBR : Int
  prevFL : Fin 4
  prevFR : Fin 4
  prevBL : Fin 4
  prevBR : Fin 4
  gyro_bias_z : ℚ
  systick_millis : Nat

/-- `isrFL` (main.c line 84) acting on the globals; `ns` is the 2-bit
phase read from the FL pins. -/
def isrFL (s : Sys) (ns : Fin 4) : Sys :=
  { s with encFL := wrap32 (s.encFL + qDelta s.prevFL ns), prevFL := ns }

/-- `isrFR` (main.c line 85) acting on the globals. -/
def isrFR (s : Sys) (ns : Fin 4) : Sys :=
  { s with encFR := wrap32 (s.encFR + qDelta s.prevFR ns), prevFR := ns }

/-- `isrBL` (main.c line 86) acting on the globals. -/
def isrBL (s : Sys) (ns : Fin 4) : Sys :=
  { s with encBL := wrap32 (s.encBL + qDelta s.prevBL ns), prevBL := ns }

/-- `isrBR` (main.c line 87) acting on the globals. -/
def isrBR (s : Sys) (ns : Fin 4) : Sys :=
  { s with encBR := wrap32 (s.encBR + qDelta s.prevBR ns), prevBR := ns }

/-- One `Running` loop iteration (main.c lines 416-440) as a function of
the globals: it snapshots the four counters, reads the sensor, builds and
sends a frame, and writes no global — the returned state is paired with
the transmitted bytes. -/
def loopBody (enc : ℚ → Nat) (s : Sys) (bus : Nat → Nat) : Sys × List Nat :=
  (s,
   send_payload Endian.little
     (buildPayload enc s.systick_millis s.encFL s.encFR s.encBL s.encBR
       (mpu_read_hw bus s.gyro_bias_z)))

/-! ### Helper lemmas -/

/-- `wrap32` always lands in the `int32_t` range. -/
theorem wrap32_rep (x : Int) : Int32Rep (wrap32 x) := by
  unfold Int32Rep wrap32
  constructor <;> omega

/-- `wrap32` fixes values already in the `int32_t` range. -/
theorem wrap32_eq_of_rep (x : Int) (h : Int32Rep x) : wrap32 x = x := by
  unfold Int32Rep at h
  unfold wrap32
  omega

/-- Wrapping composes: wrapping an already wrapped partial sum gives the
wrap of the plain sum. -/
theorem wrap32_wrap32_add (x y : Int) : wrap32 (wrap32 x + y) = wrap32 (x + y) := by
  unfold wrap32
  omega

/-- `revPhase` inverts `fwdPhase`. -/
theorem revPhase_fwdPhase : ∀ p : Fin 4, revPhase (fwdPhase p) = p := by decide

/-- The table delta of a forward step is always -1. -/
theorem qDelta_fwd : ∀ p : Fin 4, qDelta p (fwdPhase p) = -1 := by decide

/-- The table delta of the step back from a forward step is always +1. -/
theorem qDelta_fwd_back : ∀ p : Fin 4, qDelta (fwdPhase p) p = 1 := by decide

/-- A reverse step undoes a forward step exactly. -/
theorem stepRev_stepFwd (s : EncoderState) (h : Int32Rep s.position) :
    stepRev (stepFwd s) = s := by
  obtain ⟨p, ph⟩ := s
  show isrStep (isrStep ⟨p, ph⟩ (fwdPhase ph)) (revPhase (fwdPhase ph)) = ⟨p, ph⟩
  rw [revPhase_fwdPhase ph]
  simp only [isrStep, qDelta_fwd, qDelta_fwd_back, EncoderState.mk.injEq]
  refine ⟨?_, trivial⟩
  rw [wrap32_wrap32_add]
  have hp : p + -1 + 1 = p := by ring
  rw [hp]
  exact wrap32_eq_of_rep p h

/-- Unfolding `stepFwdN` from the outside. -/
theorem stepFwdN_succ (n : Nat) (s : EncoderState) :
    stepFwdN (n + 1) s = stepFwd (stepFwdN n s) := by
  induction n generalizing s with
  | zero => rfl
  | succ n ih =>
    show stepFwdN (n + 1) (stepFwd s) = stepFwd (stepFwdN (n + 1) s)
    rw [ih (stepFwd s)]
    rfl

/-- Iterated forward steps keep the position in `int32_t` range. -/
theorem stepFwdN_rep (n : Nat) (s : EncoderState) (h : Int32Rep s.position) :
    Int32Rep (stepFwdN n s).position := by
  induction n generalizing s with
  | zero => exact h
  | succ n ih => exact ih (stepFwd s) (wrap32_rep _)

/-- N reverse steps undo N forward steps exactly (full state). -/
theorem stepRevN_stepFwdN (N : Nat) (s : EncoderState) (h : Int32Rep s.position) :
    stepRevN N (stepFwdN N s) = s := by
  induction N generalizing s with
  | zero => rfl
  | succ n ih =>
    rw [stepFwdN_succ n s]
    show stepRevN n (stepRev (stepFwd (stepFwdN n s))) = s
    rw [stepRev_stepFwd _ (stepFwdN_rep n s h)]
    exact ih s h

/-! ### Claim theorems -/

/-- The frame is 49 bytes long. -/
theorem send_payload_length (p : Payload) :
    (send_payload Endian.little p).length = 49 := rfl

/-- Frame bytes 2..47 are exactly the 46 payload-struct bytes. -/
theorem send_payload_mid (p : Payload) :
    ((send_payload Endian.little p).drop 2).take 46 = payloadBytes Endian.little p :=
  rfl

/-- Frame byte 48 (the last byte) is the XOR fold of frame bytes 2..47. -/
theorem send_payload_last (p : Payload) :
    (send_payload Endian.little p).drop 48
      = [checksum_xor (((send_payload Endian.little p).drop 2).take 46)] := rfl

/-- C1: for every payload, the constructed frame is 49 bytes, its bytes
2..47 are exactly the 46 payload-struct bytes, and its byte 48 (the
transmitted checksum) equals the byte-wise XOR of exactly those bytes
2..47 — the header is excluded. -/
theorem checksum_is_xor_of_payload_bytes (p : Payload) :
    (send_payload Endian.little p).length = 49
  ∧ ((send_payload Endian.little p).drop 2).take 46 = payloadBytes Endian.little p
  ∧ (send_payload Endian.little p).drop 48
      = [checksum_xor (((send_payload Endian.little p).drop 2).take 46)] :=
  ⟨send_payload_length p, send_payload_mid p, send_payload_last p⟩

/-- C3: the quadrature table maps identical phases to 0, the eight
one-step transitions to -1 (forward) or +1 (reverse) consistently over
the whole cycle, and the four two-step (diagonal) transitions to 0;
`fwdPhase` really is a one-bit-change Gray cycle of order 4; and each
interrupt invocation adds exactly the table delta to the position and
stores the new phase. -/
theorem qlut_transition_table_correct :
    (∀ p : Fin 4, qDelta p p = 0)
  ∧ (∀ p : Fin 4,
      (p.val ^^^ (fwdPhase p).val = 1 ∨ p.val ^^^ (fwdPhase p).val = 2)
      ∧ fwdPhase (fwdPhase (fwdPhase (fwdPhase p))) = p)
  ∧ (∀ p : Fin 4, qDelta p (fwdPhase p) = -1 ∧ qDelta (fwdPhase p) p = 1)
  ∧ (∀ p : Fin 4, qDelta p (fwdPhase (fwdPhase p)) = 0)
  ∧ (∀ (s : EncoderState) (ns : Fin 4),
      (isrStep s ns).position = wrap32 (s.position + qDelta s.lastPhase ns)
      ∧ (isrStep s ns).lastPhase = ns) :=
  ⟨by decide, by decide, by decide, by decide, fun s ns => ⟨rfl, rfl⟩⟩

/-- Recomposing the four little-endian bytes of a 32-bit word. -/
theorem le32_recompose (x : Nat) :
    x % 256 + 256 * (x / 256 % 256) + 65536 * (x / 65536 % 256)
      + 16777216 * (x / 16777216 % 256) = x % 4294967296 := by omega

/-- Recomposing the two little-endian bytes of a 16-bit word. -/
theorem le16_recompose (x : Nat) :
    x % 256 + 256 * (x / 256 % 256) = x % 65536 := by omega

/-- The two's-complement bit pattern of an `int32_t` fits in 32 bits. -/
theorem u32ofInt_lt (x : Int) : u32ofInt x < 4294967296 := by
  unfold u32ofInt
  omega

/-- Concrete payload on which the byte stream differs between a
little-endian and a big-endian host. -/
def c2Payload : Payload :=
  { t_ms := 1, ticksFL := 0, ticksFR := 0, ticksBL := 0, ticksBR := 0,
    ax := 0, ay := 0, az := 0, gx := 0, gy := 0, gz := 0, flags := 0 }

/-- Counterexample to C2 as stated: `send_payload` streams the raw memory
of the packed struct, so the wire bytes follow the byte order of the host,
not an explicit little-endian normalization — on a big-endian host the
same payload would produce a different (non-little-endian) frame. -/
theorem send_payload_not_host_order_independent :
    send_payload Endian.big c2Payload ≠ send_payload Endian.little c2Payload := by
  decide

/-- Frame bytes 0..1 are the header 0xAA 0x55. -/
theorem frame_header (p : Payload) :
    (send_payload Endian.little p).take 2 = [0xAA, 0x55] := rfl

/-- Bytes 2..5 hold `t_ms` little-endian. -/
theorem frame_t_ms (p : Payload) :
    rdLE32 (send_payload Endian.little p) 2 = p.t_ms % 4294967296 :=
  le32_recompose p.t_ms

/-- Bytes 6..9 hold `ticksFL` little-endian (two's complement). -/
theorem frame_ticksFL (p : Payload) :
    rdLE32 (send_payload Endian.little p) 6 = u32ofInt p.ticksFL :=
  (le32_recompose (u32ofInt p.ticksFL)).trans
    (Nat.mod_eq_of_lt (u32ofInt_lt p.ticksFL))

/-- Bytes 10..13 hold `ticksFR` little-endian (two's complement). -/
theorem frame_ticksFR (p : Payload) :
    rdLE32 (send_payload Endian.little p) 10 = u32ofInt p.ticksFR :=
  (le32_recompose (u32ofInt p.ticksFR)).trans
    (Nat.mod_eq_of_lt (u32ofInt_lt p.ticksFR))

/-- Bytes 14..17 hold `ticksBL` little-endian (two's complement). -/
theorem frame_ticksBL (p : Payload) :
    rdLE32 (send_payload Endian.little p) 14 = u32ofInt p.ticksBL :=
  (le32_recompose (u32ofInt p.ticksBL)).trans
    (Nat.mod_eq_of_lt (u32ofInt_lt p.ticksBL))

/-- Bytes 18..21 hold `ticksBR` little-endian (two's complement). -/
theorem frame_ticksBR (p : Payload) :
    rdLE32 (send_payload Endian.little p) 18 = u32ofInt p.ticksBR :=
  (le32_recompose (u32ofInt p.ticksBR)).trans
    (Nat.mod_eq_of_lt (u32ofInt_lt p.ticksBR))

/-- Bytes 22..25 hold the `ax` float word little-endian. -/
theorem frame_ax (p : Payload) :
    rdLE32 (send_payload Endian.little p) 22 = p.ax % 4294967296 :=
  le32_recompose p.ax

/-- Bytes 26..29 hold the `ay` float word little-endian. -/
theorem frame_ay (p : Payload) :
    rdLE32 (send_payload Endian.little p) 26 = p.ay % 4294967296 :=
  le32_recompose p.ay

/-- Bytes 30..33 hold the `az` float word little-endian. -/
theorem frame_az (p : Payload) :
    rdLE32 (send_payload Endian.little p) 30 = p.az % 4294967296 :=
  le32_recompose p.az

/-- Bytes 34..37 hold the `gx` float word little-endian. -/
theorem frame_gx (p : Payload) :
    rdLE32 (send_payload Endian.little p) 34 = p.gx % 4294967296 :=
  le32_recompose p.gx

/-- Bytes 38..41 hold the `gy` float word little-endian. -/
theorem frame_gy (p : Payload) :
    rdLE32 (send_payload Endian.little p) 38 = p.gy % 4294967296 :=
  le32_recompose p.gy

/-- Bytes 42..45 hold the `gz` float word little-endian. -/
theorem frame_gz (p : Payload) :
    rdLE32 (send_payload Endian.little p) 42 = p.gz % 4294967296 :=
  le32_recompose p.gz

/-- Bytes 46..47 hold `flags` little-endian. -/
theorem frame_flags (p : Payload) :
    rdLE16 (send_payload Endian.little p) 46 = p.flags % 65536 :=
  le16_recompose p.flags

/-- C2 (amended): on the little-endian target every transmitted frame is
exactly 49 bytes — the header 0xAA 0x55, the 46 payload bytes with the
fields in declaration order at fixed offsets with no padding, each
multi-byte field in little-endian byte order (obtained from the packed
struct memory image of the little-endian host, not from an explicit
normalization), then the checksum byte. -/
theorem frame_layout_little_endian (p : Payload) :
    (send_payload Endian.little p).length = 49
  ∧ (send_payload Endian.little p).take 2 = [0xAA, 0x55]
  ∧ rdLE32 (send_payload Endian.little p) 2 = p.t_ms % 4294967296
  ∧ rdLE32 (send_payload Endian.little p) 6 = u32ofInt p.ticksFL
  ∧ rdLE32 (send_payload Endian.little p) 10 = u32ofInt p.ticksFR
  ∧ rdLE32 (send_payload Endian.little p) 14 = u32ofInt p.ticksBL
  ∧ rdLE32 (send_payload Endian.little p) 18 = u32ofInt p.ticksBR
  ∧ rdLE32 (send_payload Endian.little p) 22 = p.ax % 4294967296
  ∧ rdLE32 (send_payload Endian.little p) 26 = p.ay % 4294967296
  ∧ rdLE32 (send_payload Endian.little p) 30 = p.az % 4294967296
  ∧ rdLE32 (send_payload Endian.little p) 34 = p.gx % 4294967296
  ∧ rdLE32 (send_payload Endian.little p) 38 = p.gy % 4294967296
  ∧ rdLE32 (send_payload Endian.little p) 42 = p.gz % 4294967296
  ∧ rdLE16 (send_payload Endian.little p) 46 = p.flags % 65536
  ∧ (send_payload Endian.little p).drop 48
      = [checksum_xor (payloadBytes Endian.little p)] :=
  ⟨send_payload_length p, frame_header p, frame_t_ms p, frame_ticksFL p,
   frame_ticksFR p, frame_ticksBL p, frame_ticksBR p, frame_ax p, frame_ay p,
   frame_az p, frame_gx p, frame_gy p, frame_gz p, frame_flags p, rfl⟩

/-- C4: for every N and every starting state whose position is an
`int32_t` value, N single-step forward transitions followed by N
single-step reverse transitions return the position to its starting
value. -/
theorem forward_then_reverse_restores_position (N : Nat) (s : EncoderState)
    (h : Int32Rep s.position) :
    (stepRevN N (stepFwdN N s)).position = s.position := by
  rw [stepRevN_stepFwdN N s h]

/-- Witness for C4 at N = 3, start position 7, phase 2. -/
theorem forward_then_reverse_restores_position_witness :
    (stepRevN 3 (stepFwdN 3 ⟨7, 2⟩)).position = (7 : Int) :=
  forward_then_reverse_restores_position 3 ⟨7, 2⟩ (by decide)

/-- C5: with the burst-read outcome `ret ≤ 14` abstracted, `mpu_read`
reports an invalid sample exactly when the burst read returned fewer than
the 14 requested bytes, and the frame built that cycle carries
`flags = 0x0001` in that case and `flags = 0x0000` when all 14 bytes
arrived. -/
theorem invalid_sample_iff_short_read (ret : Nat) (buf : Nat → Nat) (bias : ℚ)
    (enc : ℚ → Nat) (now : Nat) (tFL tFR tBL tBR : Int) (h : ret ≤ 14) :
    ((mpu_read ret buf bias) = none ↔ ret < 14)
  ∧ (buildPayload enc now tFL tFR tBL tBR (mpu_read ret buf bias)).flags
      = (if ret < 14 then 1 else 0) := by
  rcases Nat.lt_or_ge ret 14 with hlt | hge
  · have hne : ret ≠ 14 := Nat.ne_of_lt hlt
    simp [mpu_read, buildPayload, hne, hlt]
  · have heq : ret = 14 := Nat.le_antisymm h hge
    subst heq
    simp [mpu_read, buildPayload]

/-- Witness for C5 at a short read of 13 bytes. -/
theorem invalid_sample_iff_short_read_witness :
    ((mpu_read 13 (fun _ => 0) 0) = none ↔ 13 < 14)
  ∧ (buildPayload (fun _ => 0) 0 0 0 0 0 (mpu_read 13 (fun _ => 0) 0)).flags
      = (if 13 < 14 then 1 else 0) :=
  invalid_sample_iff_short_read 13 (fun _ => 0) 0 (fun _ => 0) 0 0 0 0 0
    (by decide)

/-- The 14-byte burst buffer of the C6 example: `0x10 0x00` on the X-accel
register pair, zero elsewhere. -/
def c6Buf : Nat → Nat := fun i => if i = 0 then 0x10 else 0

/-- `mpu_read` on a full 14-byte read always succeeds, with the converted
axes written out. -/
theorem mpu_read_full (buf : Nat → Nat) (bias : ℚ) :
    mpu_read 14 buf bias = some
      { ax := (beRaw (buf 0) (buf 1) : ℚ) * ACCEL_S
        ay := (beRaw (buf 2) (buf 3) : ℚ) * ACCEL_S
        az := (beRaw (buf 4) (buf 5) : ℚ) * ACCEL_S
        gx := (beRaw (buf 8) (buf 9) : ℚ) * GYRO_S
        gy := (beRaw (buf 10) (buf 11) : ℚ) * GYRO_S
        gz := (beRaw (buf 12) (buf 13) : ℚ) * GYRO_S - bias } := by
  unfold mpu_read
  rw [if_neg (by decide : ¬ ((14 : Nat) ≠ 14))]

/-- The firmware call site passes the `i2c_read_burst` result through. -/
theorem mpu_read_hw_eq (bus : Nat → Nat) (bias : ℚ) :
    mpu_read_hw bus bias = mpu_read 14 (fun i => bus i % 256) bias := rfl

/-- The `uint8_t` masking of the bus bytes does not change the raw value. -/
theorem beRaw_mod (hi lo : Nat) : beRaw (hi % 256) (lo % 256) = beRaw hi lo := by
  unfold beRaw
  rw [Nat.mod_mod_of_dvd hi (dvd_refl 256), Nat.mod_mod_of_dvd lo (dvd_refl 256)]

/-- The gyro-Z output of a firmware read, as a function of the raw
register value. -/
theorem mpu_read_hw_gz (bus : Nat → Nat) (bias : ℚ) :
    (mpu_read_hw bus bias).map Sample.gz
      = some ((rawZ bus : ℚ) * GYRO_S - bias) := by
  rw [mpu_read_hw_eq, mpu_read_full]
  show some ((beRaw (bus 12 % 256) (bus 13 % 256) : ℚ) * GYRO_S - bias) = _
  rw [beRaw_mod]
  rfl

/-- C6: a full 14-byte read converts each axis from the big-endian
register pair with the fixed scale factors of the source — accel
`raw * (9.80665 / 8192)`, gyro `raw * 0.001064225`, gyro-Z with the
calibrated bias subtracted; on the example buffer the X-accel raw value
is 4096 and converts to exactly 4096 * 9.80665 / 8192 = 4.903325. -/
theorem sample_conversion_scale_factors (buf : Nat → Nat) (bias : ℚ) :
    mpu_read 14 buf bias = some
      { ax := (beRaw (buf 0) (buf 1) : ℚ) * (9.80665 / 8192)
        ay := (beRaw (buf 2) (buf 3) : ℚ) * (9.80665 / 8192)
        az := (beRaw (buf 4) (buf 5) : ℚ) * (9.80665 / 8192)
        gx := (beRaw (buf 8) (buf 9) : ℚ) * 0.001064225
        gy := (beRaw (buf 10) (buf 11) : ℚ) * 0.001064225
        gz := (beRaw (buf 12) (buf 13) : ℚ) * 0.001064225 - bias }
  ∧ beRaw (c6Buf 0) (c6Buf 1) = 4096
  ∧ (mpu_read 14 c6Buf 0).map Sample.ax = some (4096 * (9.80665 : ℚ) / 8192)
  ∧ (4096 * (9.80665 : ℚ) / 8192 = 4.903325) := by
  have hraw : beRaw (c6Buf 0) (c6Buf 1) = 4096 := by decide
  refine ⟨mpu_read_full buf bias, hraw, ?_, by norm_num⟩
  rw [mpu_read_full]
  show some ((beRaw (c6Buf 0) (c6Buf 1) : ℚ) * ACCEL_S) = _
  rw [hraw]
  unfold ACCEL_S
  norm_num

/-- C7: the calibration loop returns the arithmetic mean of the scaled raw
gyro-Z samples (the per-sample bias correction cancels against the
`+ gyro_bias_z` term); on a constant raw stream of value V the bias is
exactly V scaled, and a subsequent read on the same stream reports
corrected gyro-Z equal to 0. -/
theorem calibration_returns_mean (bufs : Fin 400 → Nat → Nat) (b : Nat → Nat)
    (bias0 : ℚ) :
    calibrate bufs bias0 = (∑ i : Fin 400, (rawZ (bufs i) : ℚ) * GYRO_S) / 400
  ∧ calibrate (fun _ => b) bias0 = (rawZ b : ℚ) * GYRO_S
  ∧ (mpu_read_hw b (calibrate (fun _ => b) bias0)).map Sample.gz = some 0 := by
  have hsum : ∀ (bufs : Fin 400 → Nat → Nat) (bz : ℚ),
      calibrate bufs bz = (∑ i : Fin 400, (rawZ (bufs i) : ℚ) * GYRO_S) / 400 := by
    intro bufs bz
    have h : (∑ i : Fin 400,
        (match mpu_read_hw (bufs i) bz with
         | some m => m.gz + bz
         | none => 0)) = ∑ i : Fin 400, (rawZ (bufs i) : ℚ) * GYRO_S :=
      Finset.sum_congr rfl fun i _ => by
        rw [mpu_read_hw_eq, mpu_read_full]
        show (beRaw (bufs i 12 % 256) (bufs i 13 % 256) : ℚ) * GYRO_S - bz + bz
            = (rawZ (bufs i) : ℚ) * GYRO_S
        rw [beRaw_mod]
        unfold rawZ
        ring
    unfold calibrate
    rw [h]
  have hconst : calibrate (fun _ => b) bias0 = (rawZ b : ℚ) * GYRO_S := by
    rw [hsum]
    rw [Finset.sum_const, Finset.card_univ]
    simp only [Fintype.card_fin, nsmul_eq_mul, Nat.cast_ofNat]
    ring_nf
  refine ⟨hsum bufs bias0, hconst, ?_⟩
  rw [mpu_read_hw_gz b (calibrate (fun _ => b) bias0), hconst]
  simp

/-- If `mpu_begin` reports failure, `main` emits nothing, whatever the
environment does and however long it runs. -/
theorem mainOut_false (enc : ℚ → Nat) (bias : ℚ) (cyc : Nat → CycleIn) :
    ∀ n, mainOut false enc bias cyc n = [] := by
  intro n
  induction n with
  | zero => rfl
  | succ n ih =>
    show mainOut false enc bias cyc n ++ (if false then _ else []) = []
    rw [ih]
    rfl

/-- C8: `mpu_begin` in fact always reports success; had it reported
failure, `main` would halt and transmit no frame ever, and any execution
that transmitted at least one byte is one where `mpu_begin` succeeded —
no frame precedes a successful initialization. -/
theorem fail_stop_no_frames (beginOk : Bool) (enc : ℚ → Nat) (bias : ℚ)
    (cyc : Nat → CycleIn) (n : Nat) :
    mainOut false enc bias cyc n = []
  ∧ mpu_begin = true
  ∧ (mainOut beginOk enc bias cyc n ≠ [] → beginOk = true) := by
  refine ⟨mainOut_false enc bias cyc n, rfl, fun h => ?_⟩
  cases beginOk with
  | false => exact absurd (mainOut_false enc bias cyc n) h
  | true => rfl

/-- Trivial float encoding used for concrete witnesses. -/
def enc0 : ℚ → Nat := fun _ => 0

/-- Concrete loop environment used for concrete witnesses. -/
def cyc0 : Nat → CycleIn := fun _ => ⟨0, 0, 0, 0, 0, fun _ => 0⟩

/-- Witness for C8: after 3 iterations with a failed initialization the
output is empty, and the hypothesis of the contrapositive part is
discharged on a concrete run that did emit bytes. -/
theorem fail_stop_no_frames_witness :
    mainOut false enc0 0 cyc0 3 = [] ∧ mpu_begin = true ∧ true = true :=
  have h := fail_stop_no_frames true enc0 0 cyc0 3
  ⟨h.1, h.2.1, h.2.2 (by decide)⟩

/-- C9: each wheel's interrupt handler mutates only that wheel's counter
and phase — the other three wheels' counters and phases, the gyro bias,
and the millisecond counter are untouched — and one main-loop iteration
mutates no global at all (it only reads the counters into the frame). -/
theorem isr_isolation (s : Sys) (ns : Fin 4) (enc : ℚ → Nat) (bus : Nat → Nat) :
    ((isrFL s ns).encFR = s.encFR ∧ (isrFL s ns).encBL = s.encBL
      ∧ (isrFL s ns).encBR = s.encBR ∧ (isrFL s ns).prevFR = s.prevFR
      ∧ (isrFL s ns).prevBL = s.prevBL ∧ (isrFL s ns).prevBR = s.prevBR
      ∧ (isrFL s ns).gyro_bias_z = s.gyro_bias_z
      ∧ (isrFL s ns).systick_millis = s.systick_millis)
  ∧ ((isrFR s ns).encFL = s.encFL ∧ (isrFR s ns).encBL = s.encBL
      ∧ (isrFR s ns).encBR = s.encBR ∧ (isrFR s ns).prevFL = s.prevFL
      ∧ (isrFR s ns).prevBL = s.prevBL ∧ (isrFR s ns).prevBR = s.prevBR
      ∧ (isrFR s ns).gyro_bias_z = s.gyro_bias_z
      ∧ (isrFR s ns).systick_millis = s.systick_millis)
  ∧ ((isrBL s ns).encFL = s.encFL ∧ (isrBL s ns).encFR = s.encFR
      ∧ (isrBL s ns).encBR = s.encBR ∧ (isrBL s ns).prevFL = s.prevFL
      ∧ (isrBL s ns).prevFR = s.prevFR ∧ (isrBL s ns).prevBR = s.prevBR
      ∧ (isrBL s ns).gyro_bias_z = s.gyro_bias_z
      ∧ (isrBL s ns).systick_millis = s.systick_millis)
  ∧ ((isrBR s ns).encFL = s.encFL ∧ (isrBR s ns).encFR = s.encFR
      ∧ (isrBR s ns).encBL = s.encBL ∧ (isrBR s ns).prevFL = s.prevFL
      ∧ (isrBR s ns).prevFR = s.prevFR ∧ (isrBR s ns).prevBL = s.prevBL
      ∧ (isrBR s ns).gyro_bias_z = s.gyro_bias_z
      ∧ (isrBR s ns).systick_millis = s.systick_millis)
  ∧ (loopBody enc s bus).1 = s :=
  ⟨⟨rfl, rfl, rfl, rfl, rfl, rfl, rfl, rfl⟩,
   ⟨rfl, rfl, rfl, rfl, rfl, rfl, rfl, rfl⟩,
   ⟨rfl, rfl, rfl, rfl, rfl, rfl, rfl, rfl⟩,
   ⟨rfl, rfl, rfl, rfl, rfl, rfl, rfl, rfl⟩, rfl⟩

/-- C10: `i2c_read_burst` returns its requested count `n` for every bus
behaviour, so the firmware's sensor read always succeeds, every built
frame carries `flags = 0`, and frame bytes 46..47 are `00 00` — the
bus-failure branch is unreachable. -/
theorem burst_read_always_full (bus : Nat → Nat) (n : Nat) (bias : ℚ)
    (enc : ℚ → Nat) (now : Nat) (tFL tFR tBL tBR : Int) :
    (i2c_read_burst bus n).2 = n
  ∧ (mpu_read_hw bus bias).isSome = true
  ∧ (buildPayload enc now tFL tFR tBL tBR (mpu_read_hw bus bias)).flags = 0
  ∧ ((send_payload Endian.little
        (buildPayload enc now tFL tFR tBL tBR (mpu_read_hw bus bias))).drop
          46).take 2 = [0, 0] := by
  have hflags :
      (buildPayload enc now tFL tFR tBL tBR (mpu_read_hw bus bias)).flags = 0 := by
    rw [mpu_read_hw_eq, mpu_read_full]
    rfl
  refine ⟨rfl, ?_, hflags, ?_⟩
  · rw [mpu_read_hw_eq, mpu_read_full]
    rfl
  · have h1 : ((send_payload Endian.little
        (buildPayload enc now tFL tFR tBL tBR (mpu_read_hw bus bias))).drop
          46).take 2
      = le16 (buildPayload enc now tFL tFR tBL tBR (mpu_read_hw bus bias)).flags :=
      rfl
    rw [h1, hflags]
    decide

end CyberTruck
